import Mathlib

/-!
# nrinsights: a batching client for New Relic Insights

A shallow embedding of the Go package `nrinsights` (`nrinsights.go`, `client.go`,
`global.go`, `nr_test.go`) and proofs about configuration validation, the
manager loop, the flush worker, requeueing, shutdown and the global singleton.

Conventions of the embedding.

* A Go `int` and a `time.Duration` are integers; no arithmetic is performed on
  them in this package, only comparisons, so `Int` is used as is.
* A channel that carries no data and is only ever closed (`quitCh`, `doneCh`)
  is a `Bool`: `true` once `close` has run. `msgCh` is unbuffered, so a send
  and the matching receive happen together and the channel holds no state.
* `NREvent` is `interface{}` in the source; it is a type parameter here.
* Goroutines are interleaved explicitly: the manager goroutine reacts to the
  triggers its `select` receives, and a goroutine created by
  `go h.postToInsights(batch)` sits in `spawned` until the scheduler runs it.
-/

namespace Nrinsights

/-! ## nrinsights.go -/

/-- The five package-level error values of `nrinsights.go`. Each is a distinct
allocation made by `fmt.Errorf`, compared by identity in Go. -/
inductive error where
  | ErrNoEndpoint
  | ErrNoToken
  | ErrDuplicateSetup
  | ErrBatchSize
  | ErrBatchDelay
deriving DecidableEq, Repr

/-- The message given to `fmt.Errorf` for each error value. -/
def error.Error : error → String
  | .ErrNoEndpoint => "no endpoint configured"
  | .ErrNoToken => "no token configured"
  | .ErrDuplicateSetup => "global client already setup"
  | .ErrBatchSize => "MaxBatchSize must by 1 or larger"
  | .ErrBatchDelay => "MaxBatchDelay must by 1 second or longer"

/-- Config holds the configuration data; `MaxBatchDelay` is a `time.Duration`,
a number of nanoseconds. -/
structure Config where
  Endpoint : String
  Token : String
  MaxBatchSize : Int
  MaxBatchDelay : Int
deriving DecidableEq, Repr

/-- The constant `time.Second`, in nanoseconds. -/
def Second : Int := 1000000000

/-- The constant `time.Minute`, in nanoseconds. -/
def Minute : Int := 60 * Second

/-- DefaultConfig of `nrinsights.go`. -/
def DefaultConfig : Config :=
  { Endpoint := "", Token := "", MaxBatchSize := 100, MaxBatchDelay := Minute }

/-! ## White space, as `strings.TrimSpace` sees it -/

/-- The predicate `unicode.IsSpace`: the Latin-1 spaces `\t \n \v \f \r`, space,
U+0085, U+00A0, and beyond Latin-1 the code points with the White_Space
property. -/
def isSpace (r : Char) : Bool :=
  let n := r.toNat
  (9 ≤ n && n ≤ 13) || n == 32 || n == 133 || n == 160 || n == 5760 ||
  (8192 ≤ n && n ≤ 8202) || n == 8232 || n == 8233 || n == 8239 || n == 8287 ||
  n == 12288

/-- The function `strings.TrimSpace`: leading, then trailing white space removed. -/
def TrimSpace (s : String) : String :=
  ⟨((s.data.dropWhile isSpace).reverse.dropWhile isSpace).reverse⟩

/-- A configuration that passes every check of `NewClient`. -/
def Config.Valid (cfg : Config) : Prop :=
  TrimSpace cfg.Endpoint ≠ "" ∧ TrimSpace cfg.Token ≠ "" ∧
    ¬ cfg.MaxBatchSize < 1 ∧ ¬ cfg.MaxBatchDelay < Second

/-! ## nr_test.go -/

/-- Event of `nr_test.go`, the only implementation of `NREvent` in the repository. -/
structure Event where
  EventType : String
  EventName : String
  Timestamp : Int
deriving DecidableEq, Repr

/-- The configuration built by the test `ExampleClient` (lines 36-38), `url`
being the address of its test server. -/
def exampleConfig (url : String) : Config :=
  { DefaultConfig with Endpoint := url, Token := "fake_token" }

/-! ## client.go: the manager loop -/

/-- What the `select` of the manager loop (lines 108-118) can receive. -/
inductive Trigger (NREvent : Type) where
  | quit
  | message (e : NREvent)
  | tick
deriving DecidableEq, Repr

/-- The manager goroutine: its local `batch`, the goroutines it has created
with `go h.postToInsights(batch)` (argument of each, oldest first) and, once it
has returned, the argument of the deferred `h.postToInsights(batch)`. -/
structure ManagerState (NREvent : Type) where
  batch : List NREvent
  spawned : List (List NREvent)
  final : Option (List NREvent)
deriving DecidableEq, Repr

/-- The manager before its first iteration: `batch := make([]NREvent, 0, ...)`. -/
def ManagerState.init {NREvent : Type} : ManagerState NREvent :=
  { batch := [], spawned := [], final := none }

/-- Every batch handed to `postToInsights` so far, the deferred one last. -/
def ManagerState.handed {NREvent : Type} (m : ManagerState NREvent) : List (List NREvent) :=
  m.spawned ++ m.final.toList

/-- Lines 103-106: a full batch is handed to a new goroutine and replaced. -/
def flushIfFull {NREvent : Type} (cfg : Config) (m : ManagerState NREvent) :
    ManagerState NREvent :=
  if (m.batch.length : Int) ≥ cfg.MaxBatchSize then
    { m with spawned := m.spawned ++ [m.batch], batch := [] }
  else m

/-- The `for` loop of `manager` (lines 101-119), run on the triggers its `select`
receives, in order. With no trigger left the loop is blocked in `select` and the
state at that point is returned; on `quit` the loop returns and the deferred
call is recorded in `final` (triggers after `quit` are never looked at). -/
def manager {NREvent : Type} (cfg : Config) :
    List (Trigger NREvent) → ManagerState NREvent → ManagerState NREvent
  | [], m => flushIfFull cfg m
  | .quit :: _, m =>
    let m := flushIfFull cfg m
    { m with final := some m.batch }
  | .message e :: ts, m =>
    let m := flushIfFull cfg m
    manager cfg ts { m with batch := m.batch ++ [e] }
  | .tick :: ts, m =>
    let m := flushIfFull cfg m
    manager cfg ts { m with spawned := m.spawned ++ [m.batch], batch := [] }

/-- One more step of a manager that is blocked in `select`: it takes the trigger
(lines 108-118) and, unless it returns, runs the head of the next iteration
(lines 102-106) and blocks in `select` again. A manager that has returned takes
no trigger. -/
def manager.resume {NREvent : Type} (cfg : Config) (m : ManagerState NREvent) :
    Trigger NREvent → ManagerState NREvent
  | .quit => if m.final.isSome then m else { m with final := some m.batch }
  | .message e =>
    if m.final.isSome then m else flushIfFull cfg { m with batch := m.batch ++ [e] }
  | .tick =>
    if m.final.isSome then m
    else flushIfFull cfg { m with spawned := m.spawned ++ [m.batch], batch := [] }

/-! ## client.go: the flush worker -/

/-- How the single send attempt of `postToInsights` can end: `json.Marshal`
fails (line 134); `http.NewRequest` fails, its error is ignored and `req` is nil
(line 139); `client.Do` returns an error (line 145); `client.Do` returns a
response, whose status code the code never reads. -/
inductive SendAttempt where
  | marshalError
  | requestError
  | transportError
  | response (status : Nat)
deriving DecidableEq, Repr

/-- The function `handler.requeue` (lines 154-163). `quit i` tells whether the
`select` of iteration `i` finds `quitCh` closed; otherwise the event is sent on
`msgCh`. The result is the list of events sent on `msgCh`, in sending order. -/
def requeue {NREvent : Type} (quit : Nat → Bool) : List NREvent → Nat → List NREvent
  | [], _ => []
  | e :: s, i => if quit i then [] else e :: requeue quit s (i + 1)

/-- What one call of `postToInsights` did: the body of the POST that the
endpoint answered, if any (the JSON array of the batch, in batch order), and
the events put back on `msgCh`. -/
structure PostResult (NREvent : Type) where
  posted : Option (List NREvent)
  requeued : List NREvent
deriving DecidableEq, Repr

/-- The function `handler.postToInsights` (lines 122-152). `none` is the panic
of `req.Header.Set` on the nil request left by a failed `http.NewRequest`. -/
def postToInsights {NREvent : Type} (s : List NREvent) (a : SendAttempt)
    (quit : Nat → Bool) : Option (PostResult NREvent) :=
  if s.length = 0 then some { posted := none, requeued := [] }
  else
    match a with
    | .marshalError => some { posted := none, requeued := requeue quit s 0 }
    | .requestError => none
    | .transportError => some { posted := none, requeued := requeue quit s 0 }
    | .response _ => some { posted := some s, requeued := [] }

/-! ## client.go: the handler, `Send` and `Close` -/

/-- How a call ends: it returns, it panics, or it cannot proceed in the current
state (a receive on an open channel, `h.wg.Wait()` with a non-zero counter). -/
inductive Outcome (α : Type) where
  | returned (a : α)
  | panicked
  | blocked
deriving DecidableEq, Repr

/-- Sequencing of calls: what follows a call runs only if the call returns. -/
def Outcome.bind {α β : Type} : Outcome α → (α → Outcome β) → Outcome β
  | .returned a, f => f a
  | .panicked, _ => .panicked
  | .blocked, _ => .blocked

/-- The result of a call that returned, transformed. -/
def Outcome.map {α β : Type} (f : α → β) : Outcome α → Outcome β
  | .returned a => .returned (f a)
  | .panicked => .panicked
  | .blocked => .blocked

/-- The handler shared by the client, the manager goroutine and the flush
goroutines: configuration; the two signalling channels; the manager goroutine;
the wait group `wg`, as the list of flush goroutines that have executed
`h.wg.Add(1)` (line 124) and not yet `h.wg.Done()` (its counter is the length
of the list); and the request bodies the endpoint has received and answered.
A goroutine in `m.spawned` has been created by the `go` statement but has not
reached line 124. -/
structure handler (NREvent : Type) where
  cfg : Config
  quitCh : Bool
  doneCh : Bool
  m : ManagerState NREvent
  wg : List (List NREvent)
  posts : List (List NREvent)
deriving DecidableEq, Repr

/-- The handler built by `NewClient` (lines 46-55), with the manager goroutine
started and blocked in its first `select`. -/
def handler.start {NREvent : Type} (cfg : Config) : handler NREvent :=
  { cfg := cfg, quitCh := false, doneCh := false,
    m := manager cfg [] ManagerState.init, wg := [], posts := [] }

/-- The built-in `close` on a channel: closing a closed channel panics. -/
def closeChan (closed : Bool) : Outcome Bool :=
  if closed then .panicked else .returned true

/-- The method `client.Send` (lines 67-73): nothing if `quitCh` is closed,
otherwise the message is sent on `msgCh`, which completes when the manager
receives it in its `select`. -/
def handler.Send {NREvent : Type} (h : handler NREvent) (message : NREvent) :
    handler NREvent :=
  if h.quitCh then h
  else { h with m := manager.resume h.cfg h.m (.message message) }

/-- The ticker fires and the manager takes the `ticker.C` case (lines 115-117). -/
def handler.tick {NREvent : Type} (h : handler NREvent) : handler NREvent :=
  { h with m := manager.resume h.cfg h.m .tick }

/-- The scheduler lets the `i`-th goroutine of `spawned` begin `postToInsights`:
it executes `h.wg.Add(1)` (line 124). -/
def handler.startWorker {NREvent : Type} (h : handler NREvent) (i : Nat) : handler NREvent :=
  match h.m.spawned.get? i with
  | none => h
  | some s => { h with m := { h.m with spawned := h.m.spawned.eraseIdx i }, wg := h.wg ++ [s] }

/-- The scheduler lets the `j`-th goroutine counted by `wg` run lines 127-152 to
its return and the deferred `h.wg.Done()`, with the given outcome of its send
attempt. While `quitCh` is open the manager is in its loop and receives the
events that `requeue` sends. -/
def handler.finishWorker {NREvent : Type} (h : handler NREvent) (j : Nat) (a : SendAttempt) :
    Outcome (handler NREvent) :=
  match h.wg.get? j with
  | none => .returned h
  | some s =>
    match postToInsights s a (fun _ => h.quitCh) with
    | none => .panicked
    | some r =>
      .returned { h with
        wg := h.wg.eraseIdx j
        m := r.requeued.foldl (fun m e => manager.resume h.cfg m (.message e)) h.m
        posts := h.posts ++ r.posted.toList }

/-- The manager takes the `quitCh` case of its `select` (lines 109-112) and
returns: the case needs `quitCh` closed; `h.wg.Wait()` (line 111) needs the
counter of `wg` at zero; then the deferred `h.postToInsights(batch)` (line 99)
runs in the manager goroutine, with send outcome `a`, and `close(h.doneCh)`
(line 92). -/
def handler.shutdown {NREvent : Type} (h : handler NREvent) (a : SendAttempt) :
    Outcome (handler NREvent) :=
  if h.quitCh = false then .blocked
  else if h.wg.length ≠ 0 then .blocked
  else
    let m := manager.resume h.cfg h.m .quit
    match postToInsights m.batch a (fun _ => h.quitCh) with
    | none => .panicked
    | some r =>
      (closeChan h.doneCh).map fun d =>
        { h with m := m, doneCh := d, posts := h.posts ++ r.posted.toList }

/-- Lines 79-83 of `client.Close`: `quitCh` is closed unless it is closed already. -/
def handler.closeQuit {NREvent : Type} (h : handler NREvent) : Outcome (handler NREvent) :=
  if h.quitCh then .returned h
  else (closeChan h.quitCh).map fun q => { h with quitCh := q }

/-- The method `client.Close` (lines 77-87): `closeQuit`, then `<-h.doneCh`,
which returns at once if `doneCh` is closed and otherwise once the manager has
shut down (`a` is the send outcome of its final flush). It is `blocked` as long
as a flush goroutine counted by `wg` has not finished: the schedule then goes
on with `closeQuit`, `finishWorker` for those goroutines, and `Close`. -/
def handler.Close {NREvent : Type} (h : handler NREvent) (a : SendAttempt) :
    Outcome (handler NREvent) :=
  h.closeQuit.bind fun h => if h.doneCh then .returned h else h.shutdown a

/-! ## nrinsights.go, global.go: the `Client` interface and its two implementations -/

/-- A non-nil value of the interface `Client`: a `*client` with its handler, or
a `*nilCheckClient` with its `client` field (`none` is the nil interface). -/
inductive Client (NREvent : Type) where
  | client (h : handler NREvent)
  | nilCheckClient (client : Option (Client NREvent))

/-- `Send` of the interface: `client.Send`, and `nilCheckClient.Send`
(global.go lines 43-47). -/
def Client.Send {NREvent : Type} : Client NREvent → NREvent → Client NREvent
  | .client h, message => .client (h.Send message)
  | .nilCheckClient none, _ => .nilCheckClient none
  | .nilCheckClient (some c), message => .nilCheckClient (some (c.Send message))

/-- `Close` of the interface: `client.Close`, and `nilCheckClient.Close`
(global.go lines 50-54). -/
def Client.Close {NREvent : Type} : Client NREvent → SendAttempt → Outcome (Client NREvent)
  | .client h, a => (h.Close a).map .client
  | .nilCheckClient none, _ => .returned (.nilCheckClient none)
  | .nilCheckClient (some c), a => (c.Close a).map fun c => .nilCheckClient (some c)

/-- Goroutines that exist on behalf of a client: the manager until it has
returned, and the flush goroutines that have not returned. -/
def Client.goroutines {NREvent : Type} : Client NREvent → Nat
  | .client h => (if h.m.final.isSome then 0 else 1) + h.m.spawned.length + h.wg.length
  | .nilCheckClient none => 0
  | .nilCheckClient (some c) => c.goroutines

/-- The function `NewClient` (client.go lines 32-57). -/
def NewClient {NREvent : Type} (cfg : Config) : Client NREvent × Option error :=
  if TrimSpace cfg.Endpoint = "" then (.nilCheckClient none, some .ErrNoEndpoint)
  else if TrimSpace cfg.Token = "" then (.nilCheckClient none, some .ErrNoToken)
  else if cfg.MaxBatchSize < 1 then (.nilCheckClient none, some .ErrBatchSize)
  else if cfg.MaxBatchDelay < Second then (.nilCheckClient none, some .ErrBatchDelay)
  else (.client (handler.start cfg), none)

/-- The package variable `globalClient` of global.go, a `nilCheckClient` value. -/
structure globalClient (NREvent : Type) where
  client : Option (Client NREvent)

/-- The function `SetupGlobalClient` (global.go lines 17-23): the new value of
`globalClient` and the returned error. -/
def SetupGlobalClient {NREvent : Type} (cfg : Config) (g : globalClient NREvent) :
    globalClient NREvent × Option error :=
  match g.client with
  | some _ => (g, some .ErrDuplicateSetup)
  | none =>
    let r : Client NREvent × Option error := NewClient cfg
    ({ client := some r.1 }, r.2)

/-- The package variable `Send` of global.go: `globalClient.Send`. -/
def globalClient.Send {NREvent : Type} (g : globalClient NREvent) (message : NREvent) :
    globalClient NREvent :=
  match g.client with
  | none => g
  | some c => { client := some (c.Send message) }

/-- The package variable `Close` of global.go: `globalClient.Close`. -/
def globalClient.Close {NREvent : Type} (g : globalClient NREvent) (a : SendAttempt) :
    Outcome (globalClient NREvent) :=
  match g.client with
  | none => .returned g
  | some c => (c.Close a).map fun c => { client := some c }

/-! ## Validation -/

/-- A string is blank when it is empty or made of white space only. -/
def blank (s : String) : Prop := ∀ c ∈ s.data, isSpace c = true

theorem dropWhile_eq_nil_of_all {α : Type} (p : α → Bool) (l : List α)
    (h : ∀ c ∈ l, p c = true) : l.dropWhile p = [] := by
  induction l with
  | nil => rfl
  | cons a l ih =>
    have ha : p a = true := h a (List.mem_cons_self a l)
    simp only [List.dropWhile_cons, ha, if_true]
    exact ih fun c hc => h c (List.mem_cons_of_mem a hc)

theorem dropWhile_head_false {α : Type} (p : α → Bool) (l : List α) (a : α) (t : List α)
    (h : l.dropWhile p = a :: t) : p a = false := by
  induction l with
  | nil => simp at h
  | cons b l ih =>
    by_cases hb : p b = true
    · simp only [List.dropWhile_cons, hb, if_true] at h
      exact ih h
    · simp only [List.dropWhile_cons, hb] at h
      simp only [Bool.false_eq_true, if_false, List.cons.injEq] at h
      rw [← h.1]
      simpa using hb

/-- `strings.TrimSpace(s) == ""` holds exactly for the blank strings. -/
theorem TrimSpace_eq_empty_iff (s : String) : TrimSpace s = "" ↔ blank s := by
  unfold TrimSpace blank
  constructor
  · intro h
    have h1 : ((s.data.dropWhile isSpace).reverse.dropWhile isSpace).reverse = [] := by
      have := congrArg String.data h
      simpa using this
    have h2 : (s.data.dropWhile isSpace).reverse.dropWhile isSpace = [] := by
      simpa using h1
    have h3 : ∀ c ∈ s.data.dropWhile isSpace, isSpace c = true := by
      intro c hc
      have hall := List.dropWhile_eq_nil_iff.mp h2
      exact hall c (List.mem_reverse.mpr hc)
    cases hd : s.data.dropWhile isSpace with
    | nil => exact List.dropWhile_eq_nil_iff.mp hd
    | cons a t =>
      have hfalse := dropWhile_head_false isSpace s.data a t hd
      have htrue := h3 a (by rw [hd]; exact List.mem_cons_self a t)
      rw [hfalse] at htrue
      exact absurd htrue (by decide)
  · intro h
    have h1 : s.data.dropWhile isSpace = [] := dropWhile_eq_nil_of_all isSpace s.data h
    rw [h1]
    rfl

theorem valid_iff (cfg : Config) :
    cfg.Valid ↔ ¬ (blank cfg.Endpoint ∨ blank cfg.Token ∨ cfg.MaxBatchSize < 1 ∨
      cfg.MaxBatchDelay < Second) := by
  unfold Config.Valid
  rw [← TrimSpace_eq_empty_iff, ← TrimSpace_eq_empty_iff]
  tauto

/-- `NewClient` returns a nil error exactly for the valid configurations. -/
theorem NewClient_error_none_iff {NREvent : Type} (cfg : Config) :
    (NewClient cfg : Client NREvent × Option error).2 = none ↔ cfg.Valid := by
  unfold NewClient Config.Valid
  split_ifs <;> simp_all

theorem valid_size {cfg : Config} (h : cfg.Valid) : 1 ≤ cfg.MaxBatchSize := by
  have := h.2.2.1
  omega

theorem NewClient_of_not_valid {NREvent : Type} (cfg : Config) (h : ¬ cfg.Valid) :
    (NewClient cfg : Client NREvent × Option error).1 = .nilCheckClient none := by
  unfold Config.Valid at h
  unfold NewClient
  split_ifs <;> first | rfl | tauto

theorem NewClient_of_valid {NREvent : Type} (cfg : Config) (h : cfg.Valid) :
    (NewClient cfg : Client NREvent × Option error) = (.client (handler.start cfg), none) := by
  obtain ⟨h1, h2, h3, h4⟩ := h
  simp [NewClient, h1, h2, h3, h4]

/-- C1. A configuration with a blank endpoint, a blank token, `MaxBatchSize < 1`
or `MaxBatchDelay < time.Second` makes `NewClient` return a non-nil error and a
`nilCheckClient` with no inner client, on which `Send` and `Close` change
nothing and for which no goroutine exists; when only one of the four checks
fails the error is the one named after it; the four errors, and their messages,
are pairwise distinct. -/
theorem NewClient_invalid {NREvent : Type} (cfg : Config)
    (h : blank cfg.Endpoint ∨ blank cfg.Token ∨ cfg.MaxBatchSize < 1 ∨
      cfg.MaxBatchDelay < Second) :
    (∃ err, (NewClient cfg : Client NREvent × Option error).2 = some err) ∧
    (NewClient cfg : Client NREvent × Option error).1 = .nilCheckClient none ∧
    (∀ message : NREvent, (NewClient cfg).1.Send message = (NewClient cfg).1) ∧
    (∀ a, (NewClient cfg : Client NREvent × Option error).1.Close a
      = .returned (NewClient cfg).1) ∧
    (NewClient cfg : Client NREvent × Option error).1.goroutines = 0 ∧
    (blank cfg.Endpoint → ¬ blank cfg.Token → ¬ cfg.MaxBatchSize < 1 →
      ¬ cfg.MaxBatchDelay < Second →
      (NewClient cfg : Client NREvent × Option error).2 = some .ErrNoEndpoint) ∧
    (¬ blank cfg.Endpoint → blank cfg.Token → ¬ cfg.MaxBatchSize < 1 →
      ¬ cfg.MaxBatchDelay < Second →
      (NewClient cfg : Client NREvent × Option error).2 = some .ErrNoToken) ∧
    (¬ blank cfg.Endpoint → ¬ blank cfg.Token → cfg.MaxBatchSize < 1 →
      ¬ cfg.MaxBatchDelay < Second →
      (NewClient cfg : Client NREvent × Option error).2 = some .ErrBatchSize) ∧
    (¬ blank cfg.Endpoint → ¬ blank cfg.Token → ¬ cfg.MaxBatchSize < 1 →
      cfg.MaxBatchDelay < Second →
      (NewClient cfg : Client NREvent × Option error).2 = some .ErrBatchDelay) ∧
    [error.ErrNoEndpoint, .ErrNoToken, .ErrBatchSize, .ErrBatchDelay].Nodup ∧
    ([error.ErrNoEndpoint, .ErrNoToken, .ErrBatchSize, .ErrBatchDelay].map error.Error).Nodup := by
  simp only [← TrimSpace_eq_empty_iff] at h ⊢
  have hclient : (NewClient cfg : Client NREvent × Option error).1 = .nilCheckClient none :=
    NewClient_of_not_valid cfg (by unfold Config.Valid; tauto)
  refine ⟨?_, hclient, ?_, ?_, ?_, ?_, ?_, ?_, ?_, by decide, by decide⟩
  · unfold NewClient
    split_ifs <;> first | exact ⟨_, rfl⟩ | tauto
  · intro message
    rw [hclient]
    simp [Client.Send]
  · intro a
    rw [hclient]
    simp [Client.Close]
  · rw [hclient]
    simp [Client.goroutines]
  · intro h1 _ _ _
    simp [NewClient, h1]
  · intro h1 h2 _ _
    simp [NewClient, h1, h2]
  · intro h1 h2 h3 _
    simp [NewClient, h1, h2, h3]
  · intro h1 h2 h3 h4
    simp [NewClient, h1, h2, h3, h4]

theorem NewClient_invalid_witness :
    (blank (Config.mk " \t" "token" 1 Second).Endpoint ∨
      blank (Config.mk " \t" "token" 1 Second).Token ∨
      (Config.mk " \t" "token" 1 Second).MaxBatchSize < 1 ∨
      (Config.mk " \t" "token" 1 Second).MaxBatchDelay < Second) ∧
    (NewClient (Config.mk " \t" "token" 1 Second) : Client Event × Option error).1
      = .nilCheckClient none ∧
    (NewClient (Config.mk " \t" "token" 1 Second) : Client Event × Option error).2
      = some .ErrNoEndpoint :=
  have hb : blank (Config.mk " \t" "token" 1 Second).Endpoint := by
    unfold blank; decide
  have h := @NewClient_invalid Event (Config.mk " \t" "token" 1 Second) (Or.inl hb)
  ⟨Or.inl hb, h.2.1,
    h.2.2.2.2.2.1 hb (by unfold blank; decide) (by decide) (by decide)⟩

/-! ## The manager loop -/

theorem flushIfFull_of_lt {NREvent : Type} (cfg : Config) (m : ManagerState NREvent)
    (h : (m.batch.length : Int) < cfg.MaxBatchSize) : flushIfFull cfg m = m := by
  unfold flushIfFull
  rw [if_neg (by omega)]

theorem flushIfFull_of_ge {NREvent : Type} (cfg : Config) (m : ManagerState NREvent)
    (h : cfg.MaxBatchSize ≤ (m.batch.length : Int)) :
    flushIfFull cfg m = { m with spawned := m.spawned ++ [m.batch], batch := [] } := by
  unfold flushIfFull
  rw [if_pos (by omega)]

theorem manager_nil {NREvent : Type} (cfg : Config) (m : ManagerState NREvent) :
    manager cfg [] m = flushIfFull cfg m := rfl

theorem manager_quit {NREvent : Type} (cfg : Config) (ts : List (Trigger NREvent))
    (m : ManagerState NREvent) :
    manager cfg (.quit :: ts) m
      = { flushIfFull cfg m with final := some (flushIfFull cfg m).batch } := rfl

theorem manager_message {NREvent : Type} (cfg : Config) (e : NREvent)
    (ts : List (Trigger NREvent)) (m : ManagerState NREvent) :
    manager cfg (.message e :: ts) m
      = manager cfg ts { flushIfFull cfg m with batch := (flushIfFull cfg m).batch ++ [e] } :=
  rfl

theorem manager_tick {NREvent : Type} (cfg : Config) (ts : List (Trigger NREvent))
    (m : ManagerState NREvent) :
    manager cfg (.tick :: ts) m
      = manager cfg ts { flushIfFull cfg m with
          spawned := (flushIfFull cfg m).spawned ++ [(flushIfFull cfg m).batch], batch := [] } :=
  rfl

/-- Messages that fit in the batch are appended to it, one loop iteration each,
without any flush. -/
theorem manager_messages {NREvent : Type} (cfg : Config) (es : List NREvent)
    (rest : List (Trigger NREvent)) :
    ∀ m : ManagerState NREvent, ((m.batch.length + es.length : Nat) : Int) ≤ cfg.MaxBatchSize →
      manager cfg (es.map .message ++ rest) m
        = manager cfg rest { m with batch := m.batch ++ es } := by
  induction es with
  | nil => intro m _; simp
  | cons e es ih =>
    intro m hm
    simp only [List.length_cons] at hm
    have hlt : (m.batch.length : Int) < cfg.MaxBatchSize := by omega
    rw [List.map_cons, List.cons_append, manager_message, flushIfFull_of_lt cfg m hlt, ih]
    · simp
    · simp only [List.length_append, List.length_cons, List.length_nil]
      omega

/-- C2. With a valid configuration whose `MaxBatchSize` is `n`, the manager
loop that starts with an empty batch and receives exactly `n` messages, and no
tick or quit, hands exactly one batch to `postToInsights`: those `n` events in
submission order; it then waits in `select` with an empty batch. -/
theorem manager_full_batch {NREvent : Type} (cfg : Config) (hv : cfg.Valid)
    (es : List NREvent) (hn : (es.length : Int) = cfg.MaxBatchSize) :
    (manager cfg (es.map .message) ManagerState.init).handed = [es] ∧
    manager cfg (es.map .message) ManagerState.init
      = { batch := [], spawned := [es], final := none } := by
  have h1 := valid_size hv
  have key : manager cfg (es.map .message) ManagerState.init
      = { batch := [], spawned := [es], final := none } := by
    have h := manager_messages cfg es [] (ManagerState.init : ManagerState NREvent)
      (by simp only [ManagerState.init, List.length_nil]; omega)
    rw [List.append_nil] at h
    rw [h]
    rw [manager_nil, flushIfFull_of_ge _ _ (by simp only [ManagerState.init, List.nil_append]; omega)]
    simp [ManagerState.init]
  exact ⟨by rw [key]; rfl, key⟩

theorem manager_full_batch_witness :
    (Config.mk "http://x" "token" 3 Second).Valid ∧
    (([10, 20, 30] : List Nat).length : Int) = (Config.mk "http://x" "token" 3 Second).MaxBatchSize ∧
    manager (Config.mk "http://x" "token" 3 Second)
      (([10, 20, 30] : List Nat).map .message) ManagerState.init
      = { batch := [], spawned := [[10, 20, 30]], final := none } :=
  ⟨by unfold Config.Valid; decide, by decide,
    (manager_full_batch (Config.mk "http://x" "token" 3 Second)
      (by unfold Config.Valid; decide) ([10, 20, 30] : List Nat) (by decide)).2⟩

/-- C3. With a valid configuration, the manager loop that starts with an empty
batch and receives `k < MaxBatchSize` messages and then one tick triggers
exactly one flush; the batch handed to `postToInsights` is those `k` events in
submission order, and the loop goes on, not returned, with a new empty batch. -/
theorem manager_tick_flush {NREvent : Type} (cfg : Config) (hv : cfg.Valid)
    (es : List NREvent) (hk : (es.length : Int) < cfg.MaxBatchSize) :
    (manager cfg (es.map .message ++ [.tick]) ManagerState.init).handed = [es] ∧
    manager cfg (es.map .message ++ [.tick]) ManagerState.init
      = { batch := [], spawned := [es], final := none } := by
  have h1 := valid_size hv
  have key : manager cfg (es.map .message ++ [.tick]) ManagerState.init
      = { batch := [], spawned := [es], final := none } := by
    rw [manager_messages cfg es [.tick] (ManagerState.init : ManagerState NREvent)
      (by simp only [ManagerState.init, List.length_nil]; omega)]
    have hin : flushIfFull cfg ({ ManagerState.init with
          batch := ManagerState.init.batch ++ es } : ManagerState NREvent)
        = { batch := es, spawned := [], final := none } := by
      rw [flushIfFull_of_lt _ _ (by simpa [ManagerState.init] using hk)]
      simp [ManagerState.init]
    rw [manager_tick, hin, manager_nil,
      flushIfFull_of_lt _ _ (by simp only [List.length_nil, Nat.cast_zero]; omega)]
    simp
  exact ⟨by rw [key]; rfl, key⟩

theorem manager_tick_flush_witness :
    (Config.mk "http://x" "token" 3 Second).Valid ∧
    (([10, 20] : List Nat).length : Int) < (Config.mk "http://x" "token" 3 Second).MaxBatchSize ∧
    manager (Config.mk "http://x" "token" 3 Second)
      (([10, 20] : List Nat).map .message ++ [.tick]) ManagerState.init
      = { batch := [], spawned := [[10, 20]], final := none } :=
  ⟨by unfold Config.Valid; decide, by decide,
    (manager_tick_flush (Config.mk "http://x" "token" 3 Second)
      (by unfold Config.Valid; decide) ([10, 20] : List Nat) (by decide)).2⟩

theorem flushIfFull_inv {NREvent : Type} (cfg : Config) (h1 : 1 ≤ cfg.MaxBatchSize)
    (m : ManagerState NREvent)
    (hs : ∀ b ∈ m.spawned, (b.length : Int) ≤ cfg.MaxBatchSize)
    (hb : (m.batch.length : Int) ≤ cfg.MaxBatchSize) :
    (∀ b ∈ (flushIfFull cfg m).spawned, (b.length : Int) ≤ cfg.MaxBatchSize) ∧
    ((flushIfFull cfg m).batch.length : Int) < cfg.MaxBatchSize ∧
    (flushIfFull cfg m).final = m.final := by
  by_cases hfull : cfg.MaxBatchSize ≤ (m.batch.length : Int)
  · rw [flushIfFull_of_ge cfg m hfull]
    refine ⟨?_, ?_, rfl⟩
    · intro b hmem
      simp only [List.mem_append, List.mem_singleton] at hmem
      rcases hmem with hmem | hmem
      · exact hs b hmem
      · rw [hmem]; exact hb
    · simp only [List.length_nil, Nat.cast_zero]
      omega
  · rw [flushIfFull_of_lt cfg m (by omega)]
    exact ⟨hs, by omega, rfl⟩

/-- The loop invariant of `manager`, from any state at the head of an iteration. -/
theorem manager_inv {NREvent : Type} (cfg : Config) (h1 : 1 ≤ cfg.MaxBatchSize)
    (ts : List (Trigger NREvent)) :
    ∀ m : ManagerState NREvent,
      (∀ b ∈ m.spawned, (b.length : Int) ≤ cfg.MaxBatchSize) →
      (m.batch.length : Int) ≤ cfg.MaxBatchSize → m.final = none →
      (∀ b ∈ (manager cfg ts m).handed, (b.length : Int) ≤ cfg.MaxBatchSize) ∧
      ((manager cfg ts m).final = none →
        ((manager cfg ts m).batch.length : Int) < cfg.MaxBatchSize) := by
  induction ts with
  | nil =>
    intro m hs hb hf
    obtain ⟨hs1, hb1, hf1⟩ := flushIfFull_inv cfg h1 m hs hb
    rw [manager_nil]
    refine ⟨?_, fun _ => hb1⟩
    intro b hmem
    simp only [ManagerState.handed, hf1, hf, Option.toList, List.append_nil] at hmem
    exact hs1 b hmem
  | cons t ts ih =>
    intro m hs hb hf
    obtain ⟨hs1, hb1, hf1⟩ := flushIfFull_inv cfg h1 m hs hb
    cases t with
    | quit =>
      rw [manager_quit]
      refine ⟨?_, ?_⟩
      · intro b hmem
        simp only [ManagerState.handed, Option.toList, List.mem_append,
          List.mem_singleton] at hmem
        rcases hmem with hmem | hmem
        · exact hs1 b hmem
        · rw [hmem]; omega
      · intro hnone
        simp at hnone
    | message e =>
      rw [manager_message]
      apply ih
      · exact hs1
      · simp only [List.length_append, List.length_cons, List.length_nil]
        push_cast
        omega
      · simp only [hf1, hf]
    | tick =>
      rw [manager_tick]
      apply ih
      · intro b hmem
        simp only [List.mem_append, List.mem_singleton] at hmem
        rcases hmem with hmem | hmem
        · exact hs1 b hmem
        · rw [hmem]; omega
      · simp only [List.length_nil, Nat.cast_zero]
        omega
      · simp only [hf1, hf]

/-- C10. With a valid configuration, whatever finite sequence of triggers
(message, tick, quit) the manager loop receives from an empty batch, every
batch it hands to `postToInsights`, the deferred final one included, has at
most `MaxBatchSize` events, and whenever the loop waits in `select` for its
next trigger the batch holds fewer than `MaxBatchSize` events. -/
theorem manager_batch_bound {NREvent : Type} (cfg : Config) (hv : cfg.Valid)
    (ts : List (Trigger NREvent)) :
    (∀ b ∈ (manager cfg ts ManagerState.init).handed, (b.length : Int) ≤ cfg.MaxBatchSize) ∧
    ((manager cfg ts ManagerState.init).final = none →
      ((manager cfg ts ManagerState.init).batch.length : Int) < cfg.MaxBatchSize) := by
  have h1 := valid_size hv
  apply manager_inv cfg h1 ts
  · intro b hmem
    simp [ManagerState.init] at hmem
  · simp only [ManagerState.init, List.length_nil, Nat.cast_zero]
    omega
  · rfl

theorem manager_batch_bound_witness :
    (Config.mk "http://x" "token" 2 Second).Valid ∧
    (∀ b ∈ (manager (Config.mk "http://x" "token" 2 Second)
        [.message 1, .message 2, .message 3, .tick, .message 4, .quit]
        (ManagerState.init : ManagerState Nat)).handed,
      (b.length : Int) ≤ (Config.mk "http://x" "token" 2 Second).MaxBatchSize) :=
  ⟨by unfold Config.Valid; decide,
    (manager_batch_bound (Config.mk "http://x" "token" 2 Second)
      (by unfold Config.Valid; decide)
      [.message 1, .message 2, .message 3, .tick, .message 4, .quit]).1⟩

/-! ## Requeue -/

theorem requeue_offset {NREvent : Type} (quit : Nat → Bool) (s : List NREvent) :
    ∀ k : Nat,
      requeue quit s k <+: s ∧
      ((∀ i, i < s.length → quit (k + i) = false) → requeue quit s k = s) ∧
      (∀ i, i < s.length → quit (k + i) = true → (requeue quit s k).length ≤ i) := by
  induction s with
  | nil =>
    intro k
    simp [requeue]
  | cons e s ih =>
    intro k
    obtain ⟨ih1, ih2, ih3⟩ := ih (k + 1)
    by_cases hq : quit k = true
    · simp only [requeue, hq, if_true]
      refine ⟨List.nil_prefix, ?_, ?_⟩
      · intro hall
        have := hall 0 (by simp)
        simp only [Nat.add_zero] at this
        rw [this] at hq
        exact absurd hq (by decide)
      · intro i _ _
        simp
    · simp only [requeue, hq]
      simp only [Bool.false_eq_true, if_false]
      refine ⟨?_, ?_, ?_⟩
      · exact (List.prefix_cons_inj e).mpr ih1
      · intro hall
        rw [ih2]
        intro i hi
        have := hall (i + 1) (by simp only [List.length_cons]; omega)
        rw [← this]
        congr 1
        omega
      · intro i hi hqi
        cases i with
        | zero =>
          simp only [Nat.add_zero] at hqi
          exact absurd hqi hq
        | succ j =>
          simp only [List.length_cons] at hi ⊢
          have := ih3 j (by omega) (by rw [← hqi]; congr 1; omega)
          omega

theorem requeue_resubmits_prefix_aux {NREvent : Type} (quit : Nat → Bool) (s : List NREvent) :
    requeue quit s 0 <+: s ∧
    ((∀ i, i < s.length → quit i = false) → requeue quit s 0 = s) ∧
    (∀ i, i < s.length → quit i = true → (requeue quit s 0).length ≤ i) := by
  have h := requeue_offset quit s 0
  simpa using h

/-- C9. Whatever the batch `s` and whenever `quitCh` is found closed, the
events `requeue` sends on `msgCh` are a prefix of `s`, in the original order
and each sent once; if no iteration finds `quitCh` closed, all of `s` is sent;
and if iteration `i` finds it closed, no event of `s` at position `i` or later
is sent. -/
theorem requeue_resubmits_prefix {NREvent : Type} (quit : Nat → Bool) (s : List NREvent) :
    requeue quit s 0 <+: s ∧
    ((∀ i, i < s.length → quit i = false) → requeue quit s 0 = s) ∧
    (∀ i, i < s.length → quit i = true → (requeue quit s 0).length ≤ i) := by
  have h := requeue_offset quit s 0
  simpa using h

/-! ## The flush worker -/

/-- C5, as stated, fails: a response with status 500 is not a 2xx response, yet
the batch is discarded and nothing is requeued. -/
theorem postToInsights_status_500_discards :
    ¬ (200 ≤ 500 ∧ 500 ≤ 299) ∧
    postToInsights ([7] : List Nat) (.response 500) (fun _ => false)
      = some { posted := some [7], requeued := [] } ∧
    ¬ (∃ r, postToInsights ([7] : List Nat) (.response 500) (fun _ => false) = some r ∧
      r.requeued = [7]) := by
  refine ⟨by decide, by decide, ?_⟩
  rintro ⟨r, hr, hq⟩
  have h : postToInsights ([7] : List Nat) (.response 500) (fun _ => false)
      = some { posted := some [7], requeued := [] } := by decide
  rw [h] at hr
  cases hr
  exact absurd hq (by decide)

/-- C5, amended. For every non-empty batch handed to `postToInsights` while
`quitCh` is not closed: if `client.Do` returns an error the whole batch is
requeued, in order; if `client.Do` returns a response, of any status, 2xx or
not, the batch is discarded and nothing is requeued. -/
theorem postToInsights_requeue_on_error {NREvent : Type} (s : List NREvent) (hs : s ≠ [])
    (quit : Nat → Bool) (hq : ∀ i, i < s.length → quit i = false) :
    postToInsights s .transportError quit = some { posted := none, requeued := s } ∧
    (∀ status, postToInsights s (.response status) quit
      = some { posted := some s, requeued := [] }) := by
  have hlen : ¬ s.length = 0 := by
    intro h
    exact hs (List.length_eq_zero.mp h)
  have hall := (requeue_resubmits_prefix_aux quit s).2.1 hq
  constructor
  · simp only [postToInsights, hlen, if_false, hall]
  · intro status
    simp only [postToInsights, hlen, if_false]

theorem postToInsights_requeue_on_error_witness :
    ([1, 2, 3] : List Nat) ≠ [] ∧
    (∀ i, i < ([1, 2, 3] : List Nat).length → (fun _ : Nat => false) i = false) ∧
    postToInsights ([1, 2, 3] : List Nat) .transportError (fun _ => false)
      = some { posted := none, requeued := [1, 2, 3] } :=
  ⟨by decide, fun _ _ => rfl,
    (postToInsights_requeue_on_error ([1, 2, 3] : List Nat) (by decide) (fun _ => false)
      (fun _ _ => rfl)).1⟩

/-! ## `Send`, `Close` and the manager -/

theorem flushIfFull_final {NREvent : Type} (cfg : Config) (m : ManagerState NREvent) :
    (flushIfFull cfg m).final = m.final := by
  unfold flushIfFull
  split_ifs <;> rfl

/-- The step function `manager.resume` is the loop `manager` taken one trigger
at a time. -/
theorem manager_append_trigger {NREvent : Type} (cfg : Config) (t : Trigger NREvent)
    (ts : List (Trigger NREvent)) :
    ∀ m : ManagerState NREvent, m.final = none →
      manager cfg (ts ++ [t]) m = manager.resume cfg (manager cfg ts m) t := by
  induction ts with
  | nil =>
    intro m hm
    have hf : (flushIfFull cfg m).final = none := by rw [flushIfFull_final, hm]
    cases t with
    | quit => simp [manager_quit, manager_nil, manager.resume, hf]
    | message e => simp [manager_message, manager_nil, manager.resume, hf]
    | tick => simp [manager_tick, manager_nil, manager.resume, hf]
  | cons u ts ih =>
    intro m hm
    have hf : (flushIfFull cfg m).final = none := by rw [flushIfFull_final, hm]
    cases u with
    | quit =>
      rw [List.cons_append, manager_quit, manager_quit]
      cases t <;> simp [manager.resume]
    | message e =>
      rw [List.cons_append, manager_message, manager_message]
      exact ih _ hf
    | tick =>
      rw [List.cons_append, manager_tick, manager_tick]
      exact ih _ hf

/-- The manager of a client on which only `Send` has been called, `quitCh` being
open, is the loop `manager` run on those messages. -/
theorem Send_all_manager {NREvent : Type} (cfg : Config) (es : List NREvent) :
    es.foldl handler.Send (handler.start cfg)
      = { handler.start cfg with m := manager cfg (es.map .message) ManagerState.init } := by
  induction es using List.reverseRecOn with
  | nil => rfl
  | append_singleton es e ih =>
    rw [List.foldl_append, ih, List.map_append, List.map_singleton,
      manager_append_trigger cfg (.message e) (es.map .message) ManagerState.init rfl]
    simp [handler.Send, handler.start]

theorem Close_returned_state {NREvent : Type} (h h1 : handler NREvent) (a : SendAttempt)
    (hc : h.Close a = .returned h1) : h1.quitCh = true ∧ h1.doneCh = true := by
  have hshut : ∀ g : handler NREvent, g.shutdown a = .returned h1 →
      g.doneCh = false → h1.quitCh = true ∧ h1.doneCh = true := by
    intro g hg hd
    unfold handler.shutdown at hg
    split at hg
    · cases hg
    · rename_i hq
      split at hg
      · cases hg
      · simp only at hg
        split at hg
        · cases hg
        · simp only [hd, closeChan, Outcome.map, Bool.false_eq_true, if_false,
            Outcome.returned.injEq] at hg
          subst hg
          exact ⟨by simpa using hq, rfl⟩
  unfold handler.Close handler.closeQuit at hc
  cases hq : h.quitCh <;> cases hd : h.doneCh <;>
    simp only [hq, hd, closeChan, Outcome.bind, Outcome.map,
      Bool.false_eq_true, if_false, if_true] at hc
  · exact hshut _ hc rfl
  · cases hc
    exact ⟨rfl, rfl⟩
  · exact hshut _ hc hd
  · cases hc
    exact ⟨hq, hd⟩

/-- A tick after messages sent through `Send` is the tick of the loop `manager`. -/
theorem Send_all_tick_manager {NREvent : Type} (cfg : Config) (es : List NREvent) :
    (es.foldl handler.Send (handler.start cfg)).tick
      = { handler.start cfg with
          m := manager cfg (es.map .message ++ [.tick]) ManagerState.init } := by
  rw [Send_all_manager, manager_append_trigger cfg .tick (es.map .message) ManagerState.init rfl]
  rfl

/-- C6. Once a first `Close` has returned, `quitCh` and `doneCh` are closed,
closing `quitCh` again would panic, and any later `Close` returns, without
panicking or blocking, and leaves the handler exactly as the first `Close`
left it. -/
theorem Close_idempotent {NREvent : Type} (h h1 : handler NREvent) (a : SendAttempt)
    (hc : h.Close a = .returned h1) :
    h1.quitCh = true ∧ h1.doneCh = true ∧ closeChan h1.quitCh = .panicked ∧
    ∀ a2, h1.Close a2 = .returned h1 := by
  have hstate := Close_returned_state h h1 a hc
  refine ⟨hstate.1, hstate.2, ?_, ?_⟩
  · simp [closeChan, hstate.1]
  · intro a2
    simp [handler.Close, handler.closeQuit, Outcome.bind, hstate.1, hstate.2]

theorem Close_idempotent_witness :
    ((handler.start (Config.mk "http://x" "token" 2 Second) : handler Nat).Send 5).Close
        (.response 200)
      = .returned { cfg := Config.mk "http://x" "token" 2 Second, quitCh := true,
                    doneCh := true, m := { batch := [5], spawned := [], final := some [5] },
                    wg := [], posts := [[5]] } ∧
    (({ cfg := Config.mk "http://x" "token" 2 Second, quitCh := true, doneCh := true,
        m := { batch := [5], spawned := [], final := some [5] }, wg := [],
        posts := [[5]] } : handler Nat).Close (.response 200)
      = .returned { cfg := Config.mk "http://x" "token" 2 Second, quitCh := true,
                    doneCh := true, m := { batch := [5], spawned := [], final := some [5] },
                    wg := [], posts := [[5]] }) :=
  ⟨by decide,
    (Close_idempotent
      ((handler.start (Config.mk "http://x" "token" 2 Second) : handler Nat).Send 5)
      _ (.response 200) (by decide)).2.2.2 (.response 200)⟩

/-- C7. Once `quitCh` is closed, `Send` is a silent no-op: the handler, and with
it the manager batch, the flush goroutines and the posted bodies, is unchanged
by any number of later calls of `Send`. -/
theorem Send_after_quit {NREvent : Type} (h : handler NREvent) (hq : h.quitCh = true) :
    (∀ message, h.Send message = h) ∧
    (∀ message, (Client.client h).Send message = Client.client h) ∧
    (∀ es : List NREvent, es.foldl handler.Send h = h) := by
  have h1 : ∀ message, h.Send message = h := by
    intro message
    simp [handler.Send, hq]
  refine ⟨h1, ?_, ?_⟩
  · intro message
    simp [Client.Send, h1]
  · intro es
    induction es with
    | nil => rfl
    | cons e es ih => rw [List.foldl_cons, h1, ih]

theorem Send_after_quit_witness :
    ({ cfg := Config.mk "http://x" "token" 2 Second, quitCh := true, doneCh := true,
       m := { batch := [5], spawned := [], final := some [5] }, wg := [],
       posts := [[5]] } : handler Nat).quitCh = true ∧
    ([6, 7] : List Nat).foldl handler.Send
      { cfg := Config.mk "http://x" "token" 2 Second, quitCh := true, doneCh := true,
        m := { batch := [5], spawned := [], final := some [5] }, wg := [], posts := [[5]] }
      = { cfg := Config.mk "http://x" "token" 2 Second, quitCh := true, doneCh := true,
          m := { batch := [5], spawned := [], final := some [5] }, wg := [],
          posts := [[5]] } :=
  ⟨rfl, (Send_after_quit _ rfl).2.2 [6, 7]⟩

/-- No event sent after a `Close` that returned reaches the handler. -/
theorem Send_after_Close {NREvent : Type} (h h1 : handler NREvent) (a : SendAttempt)
    (hc : h.Close a = .returned h1) (es : List NREvent) : es.foldl handler.Send h1 = h1 := by
  have hq := (Close_returned_state h h1 a hc).1
  induction es with
  | nil => rfl
  | cons e es ih =>
    rw [List.foldl_cons]
    have : h1.Send e = h1 := by simp [handler.Send, hq]
    rw [this, ih]

/-! ## The global client -/

/-- C8. After `SetupGlobalClient c1` on a never-configured `globalClient`, the
client installed is the non-nil one returned by `NewClient c1`, and
`SetupGlobalClient c2` returns `ErrDuplicateSetup` and leaves `globalClient` as
the first call left it, for all `c1` and `c2`. When `c1` fails validation the
client installed is a `nilCheckClient` with no inner client and the global
`Send` and `Close` stay no-ops. -/
theorem SetupGlobalClient_duplicate {NREvent : Type} (c1 c2 : Config) :
    (SetupGlobalClient c1 (globalClient.mk none : globalClient NREvent)).1.client
      = some (NewClient c1).1 ∧
    SetupGlobalClient c2 (SetupGlobalClient c1 (globalClient.mk none : globalClient NREvent)).1
      = ((SetupGlobalClient c1 (globalClient.mk none)).1, some .ErrDuplicateSetup) ∧
    (¬ c1.Valid →
      (SetupGlobalClient c1 (globalClient.mk none : globalClient NREvent)).1
        = globalClient.mk (some (.nilCheckClient none)) ∧
      (∀ message : NREvent,
        (SetupGlobalClient c2 (SetupGlobalClient c1 (globalClient.mk none)).1).1.Send message
          = (SetupGlobalClient c1 (globalClient.mk none)).1) ∧
      (∀ a,
        (SetupGlobalClient c2
            (SetupGlobalClient c1 (globalClient.mk none : globalClient NREvent)).1).1.Close a
          = .returned (SetupGlobalClient c1 (globalClient.mk none)).1)) := by
  have hfirst : (SetupGlobalClient c1 (globalClient.mk none : globalClient NREvent)).1
      = globalClient.mk (some (NewClient c1).1) := rfl
  have hsecond : SetupGlobalClient c2
      (SetupGlobalClient c1 (globalClient.mk none : globalClient NREvent)).1
      = ((SetupGlobalClient c1 (globalClient.mk none)).1, some .ErrDuplicateSetup) := by
    rw [hfirst]
    rfl
  refine ⟨by rw [hfirst], hsecond, ?_⟩
  intro hinv
  have hnil := @NewClient_of_not_valid NREvent c1 hinv
  rw [hsecond, hfirst, hnil]
  refine ⟨rfl, ?_, ?_⟩
  · intro message
    simp [globalClient.Send, Client.Send]
  · intro a
    simp [globalClient.Close, Client.Close, Outcome.map]

/-! ## `Send` followed by `Close` -/

/-- The batch of a client that was sent fewer than `MaxBatchSize` events is
flushed by `Close` itself, in the manager goroutine, before `doneCh` is closed:
the endpoint has received exactly that one body when `Close` returns. -/
theorem Send_Close_partial_batch {NREvent : Type} (cfg : Config) (hv : cfg.Valid)
    (es : List NREvent) (hne : es ≠ []) (hk : (es.length : Int) < cfg.MaxBatchSize)
    (status : Nat) :
    (es.foldl handler.Send (handler.start cfg)).Close (.response status)
      = .returned { cfg := cfg, quitCh := true, doneCh := true,
                    m := { batch := es, spawned := [], final := some es },
                    wg := [], posts := [es] } := by
  have h1 := valid_size hv
  have hm : manager cfg (es.map .message) ManagerState.init
      = { batch := es, spawned := [], final := none } := by
    have h := manager_messages cfg es [] (ManagerState.init : ManagerState NREvent)
      (by simp only [ManagerState.init, List.length_nil]; omega)
    rw [List.append_nil] at h
    rw [h, manager_nil, flushIfFull_of_lt _ _ (by simpa [ManagerState.init] using hk)]
    simp [ManagerState.init]
  have hlen : ¬ es.length = 0 := fun h => hne (List.length_eq_zero.mp h)
  rw [Send_all_manager, hm]
  simp [handler.Close, handler.closeQuit, handler.shutdown, handler.start, closeChan,
    manager.resume, postToInsights, hlen, Outcome.bind, Outcome.map]

/-- The test `ExampleClient` of `nr_test.go`, the test server answering with
status 200: the body received is the event that was sent, with event type
`EventCreation`, which is not the `BlockCreation` body of the test's expected
output. -/
theorem ExampleClient_body :
    (((handler.start (exampleConfig "http://127.0.0.1:8080") : handler Event).Send
        (Event.mk "EventCreation" "Foo" 1461097120)).Close (.response 200)).map handler.posts
      = .returned [[Event.mk "EventCreation" "Foo" 1461097120]] ∧
    [[Event.mk "EventCreation" "Foo" 1461097120]]
      ≠ [[Event.mk "BlockCreation" "Foo" 1461097120]] := by
  constructor
  · decide
  · decide

/-- The schedule in which the flush goroutine of the full batch has run to its
end before `Close` is called: the endpoint has received the body when `Close`
returns. -/
theorem Close_after_flush_finished :
    ((((handler.start (Config.mk "http://x" "token" 1 Second) : handler Event).Send
        (Event.mk "X" "Y" 123)).startWorker 0).finishWorker 0 (.response 200)).bind
        (fun h => h.Close (.response 200))
      = .returned { cfg := Config.mk "http://x" "token" 1 Second, quitCh := true,
                    doneCh := true, m := { batch := [], spawned := [], final := some [] },
                    wg := [], posts := [[Event.mk "X" "Y" 123]] } := by
  decide

/-- The schedule in which the flush goroutine of the full batch has executed
`h.wg.Add(1)` before the manager reaches `h.wg.Wait()`: `Close` does not return
until that goroutine has finished. -/
theorem Close_waits_for_started_flush :
    (((handler.start (Config.mk "http://x" "token" 1 Second) : handler Event).Send
        (Event.mk "X" "Y" 123)).startWorker 0).Close (.response 200) = .blocked := by
  decide

/-- C4, at the failing input. Configuration `{MaxBatchSize: 1, MaxBatchDelay: 1s}`,
one event sent, then `Close`, the endpoint answering 200 to whatever it gets:
the full batch was handed to a flush goroutine that has not yet reached
`h.wg.Add(1)` when the manager calls `h.wg.Wait()`, so `Close` returns
(`doneCh` closed) while the endpoint has received no POST and the goroutine
holding the event has still to run. -/
theorem Close_returns_before_full_batch_is_posted :
    (Config.mk "http://x" "token" 1 Second).Valid ∧
    (NewClient (Config.mk "http://x" "token" 1 Second) : Client Event × Option error)
      = (.client (handler.start (Config.mk "http://x" "token" 1 Second)), none) ∧
    ((handler.start (Config.mk "http://x" "token" 1 Second) : handler Event).Send
        (Event.mk "X" "Y" 123)).Close (.response 200)
      = .returned { cfg := Config.mk "http://x" "token" 1 Second, quitCh := true,
                    doneCh := true,
                    m := { batch := [], spawned := [[Event.mk "X" "Y" 123]], final := some [] },
                    wg := [], posts := [] } := by
  have hv : (Config.mk "http://x" "token" 1 Second).Valid := by
    unfold Config.Valid; decide
  exact ⟨hv, NewClient_of_valid _ hv, by decide⟩

end Nrinsights
